import Mathlib

/-!
Verification development for the base-aware calculator core
(`CalculatorModel.py` of the Math-Tool repository).

The Python source is shallowly embedded: each method of `CalculatorModel`
becomes a Lean definition over `List Char` / `String`, Python integers
become `Int`/`Nat`, and Python floats are idealised as exact rationals
(`Rat`); every value arising in the concrete scenarios proved below is a
small integer or a short dyadic/decimal fraction, on which IEEE doubles
are exact, so the idealisation does not change any proved behaviour.
Python exceptions are modelled by `Except String` results.
-/

namespace MathTool

/-- The four supported number bases (keys of `base_configs`). -/
inductive Base
  | BIN
  | OCT
  | DEC
  | HEX
deriving DecidableEq

/-- `base_configs[base]['valid_digits']`. -/
def validDigits : Base → List Char
  | .BIN => ['0', '1']
  | .OCT => ['0', '1', '2', '3', '4', '5', '6', '7']
  | .DEC => ['0', '1', '2', '3', '4', '5', '6', '7', '8', '9']
  | .HEX => ['0', '1', '2', '3', '4', '5', '6', '7', '8', '9', 'A', 'B', 'C', 'D', 'E', 'F']

/-- `base_configs[base]['base_int']`. -/
def baseInt : Base → Nat
  | .BIN => 2
  | .OCT => 8
  | .DEC => 10
  | .HEX => 16

/-- `base_configs[base]['max_display_digits']`. -/
def maxDisplayDigits : Base → Nat
  | .BIN => 64
  | .OCT => 22
  | .DEC => 20
  | .HEX => 16

/-- The `{BIN,OCT,DEC,HEX}` key as a string (used in error messages). -/
def baseName : Base → String
  | .BIN => "BIN"
  | .OCT => "OCT"
  | .DEC => "DEC"
  | .HEX => "HEX"

/-- Character class `[0-9A-Fa-f]` of the tokenizing regexes. -/
def isHexDigitChar (c : Char) : Bool :=
  ('0' ≤ c && c ≤ '9') || ('A' ≤ c && c ≤ 'F') || ('a' ≤ c && c ≤ 'f')

/-- Character class `[\+\-\*\/\(\)]` of the tokenizing regexes
(also the contents of `self.operators`). -/
def isOpChar (c : Char) : Bool :=
  c = '+' || c = '-' || c = '*' || c = '/' || c = '(' || c = ')'

/-- Python's `\s` on the ASCII range: space, tab, newline, carriage
return, vertical tab, form feed. -/
def isSpaceChar (c : Char) : Bool :=
  c = ' ' || c = '\t' || c = '\n' || c = '\r' || c = Char.ofNat 11 || c = Char.ofNat 12

/-- One step of `re.findall(r'([0-9A-Fa-f]+|[\+\-\*\/\(\)]|\s+)', expr)`
followed by the filter `[t for t in tokens if not t.isspace()]`
(`validate_expression`, lines 203-204): a maximal run of
`[0-9A-Fa-f]` characters forms one token, each operator/parenthesis
character is its own token, whitespace runs are produced and then
filtered away (here: skipped), and any other character matches no
alternative of the regex, so `findall` silently steps over it.
`acc` holds the reversed characters of the digit run in progress. -/
def reTokensValidateGo (acc : List Char) : List Char → List (List Char)
  | [] => if acc.isEmpty then [] else [acc.reverse]
  | c :: rest =>
    if isHexDigitChar c then
      reTokensValidateGo (c :: acc) rest
    else
      (if acc.isEmpty then [] else [acc.reverse]) ++
        (if isOpChar c then [c] :: reTokensValidateGo [] rest
         else reTokensValidateGo [] rest)

/-- The whitespace-filtered token list of `validate_expression`. -/
def reTokensValidate (l : List Char) : List (List Char) :=
  reTokensValidateGo [] l

/-- The `prev_token_type` variable of `validate_expression`
(`None | 'operator' | 'open_paren' | 'close_paren' | 'number'`). -/
inductive PrevTy
  | start
  | operator
  | openParen
  | closeParen
  | number
deriving DecidableEq

/-- The token loop of `validate_expression` (lines 215-268), including the
end-of-stream checks.  State: previous token type, parenthesis depth
(`paren_count`, an `Int` since the source decrements before testing `< 0`),
`operator_count`, `number_count`.  Error messages abbreviate the
interpolated Python messages but keep them pairwise distinct. -/
def validateLoop (base : Base) :
    List (List Char) → PrevTy → Int → Nat → Nat → Except String Unit
  | [], prev, paren, opCount, numCount =>
    if 0 < paren then .error "Unclosed parenthesis"
    else if prev = .operator then .error "Expression cannot end with an operator"
    else if numCount = 0 then .error "Expression must contain at least one number"
    else if numCount ≤ opCount then .error "Too many operators for the number of operands"
    else .ok ()
  | t :: rest, prev, paren, opCount, numCount =>
    if t = ['+'] ∨ t = ['-'] ∨ t = ['*'] ∨ t = ['/'] then
      if (prev = .start ∨ prev = .operator ∨ prev = .openParen) ∧
          (¬(t = ['+'] ∨ t = ['-']) ∨ prev = .operator) then
        .error "Invalid operator placement"
      else validateLoop base rest .operator paren (opCount + 1) numCount
    else if t = ['('] then
      if prev = .number then .error "Missing operator before parenthesis"
      else validateLoop base rest .openParen (paren + 1) opCount numCount
    else if t = [')'] then
      if prev = .start ∨ prev = .operator ∨ prev = .openParen then
        .error "Invalid closing parenthesis placement"
      else if paren - 1 < 0 then .error "Unmatched closing parenthesis"
      else validateLoop base rest .closeParen (paren - 1) opCount numCount
    else
      if ¬ (t.map Char.toUpper).all (fun d => (validDigits base).contains d) then
        .error "Invalid digit(s) for base"
      else if maxDisplayDigits base < t.length then
        .error "Number exceeds maximum length for base"
      else if prev = .closeParen then .error "Missing operator after parenthesis"
      else validateLoop base rest .number paren opCount (numCount + 1)

/-- `CalculatorModel.validate_expression(expr, base)` (lines 174-268).
The `base not in self.base_configs` branch is unrepresentable because
`Base` is the exact four-element key type; the non-string-argument
branch is unrepresentable because `expr : String`. -/
def validate_expression (expr : String) (base : Base) : Except String Unit :=
  let l := expr.toList
  if l.isEmpty || l.all isSpaceChar then .error "Expression cannot be empty"
  else
    let tokens := reTokensValidate l
    if tokens.isEmpty then .error "Expression contains no valid tokens"
    else validateLoop base tokens .start 0 0 0

/-- A Python numeric value as produced and consumed by the calculator:
either an `int` or a `float`.  Floats are idealised as exact rationals;
see the header comment. -/
inductive PyNum
  | intVal (n : Int)
  | floatVal (q : ℚ)
deriving DecidableEq

/-- Numeric coercion used for Python's polymorphic `==`, `<` and `/`. -/
def toRat : PyNum → ℚ
  | .intVal n => (n : ℚ)
  | .floatVal q => q

/-- Python unary minus (preserves the int/float tag). -/
def pyNeg : PyNum → PyNum
  | .intVal n => .intVal (-n)
  | .floatVal q => .floatVal (-q)

/-- Hex-digit value of an (uppercased) digit character, as used by
Python's `int(s, base)`. -/
def hexVal : Char → Nat
  | '0' => 0 | '1' => 1 | '2' => 2 | '3' => 3 | '4' => 4
  | '5' => 5 | '6' => 6 | '7' => 7 | '8' => 8 | '9' => 9
  | 'A' => 10 | 'B' => 11 | 'C' => 12 | 'D' => 13 | 'E' => 14 | 'F' => 15
  | _ => 0

/-- The digit character for a value `0..15` (uppercase letters, as in the
`.upper()`-normalised output of `from_decimal`). -/
def digitChar : Nat → Char
  | 0 => '0' | 1 => '1' | 2 => '2' | 3 => '3' | 4 => '4'
  | 5 => '5' | 6 => '6' | 7 => '7' | 8 => '8' | 9 => '9'
  | 10 => 'A' | 11 => 'B' | 12 => 'C' | 13 => 'D' | 14 => 'E' | _ => 'F'

/-- Magnitude parsing of a digit string, big-endian positional weighted
summation: the semantics of Python's `int(s, base)` on a validated,
sign-free digit string. -/
def parseNatChars (b : Nat) (l : List Char) : Nat :=
  l.foldl (fun a c => a * b + hexVal c) 0

/-- Little-endian digit characters of `n` in base `b`, by repeated
division (the semantics of Python's `bin`/`oct`/`hex` rendering, minus
the `0b`/`0o`/`0x` prefix that the source strips with `[2:]`).  The
first argument is fuel; `n` itself always suffices since `n / b < n`
for `b ≥ 2`, `n ≥ 1`. -/
def natToDigitsAux (b : Nat) : Nat → Nat → List Char
  | 0, _ => []
  | _ + 1, 0 => []
  | fuel + 1, n + 1 => digitChar ((n + 1) % b) :: natToDigitsAux b fuel ((n + 1) / b)

/-- Big-endian digit characters of `n` in base `b` (for `n ≥ 1`). -/
def natToBaseChars (b n : Nat) : List Char :=
  (natToDigitsAux b n n).reverse

/-- Python `str` of an `int`. -/
def intStr (n : Int) : String :=
  toString n

/-- Decimal digits of the fractional part `q` (with `0 ≤ q < 1`) of a
float, produced by repeated multiplication by 10; empty once the
remainder is zero.  Fuel 17 mirrors the longest digit strings CPython's
shortest-repr algorithm emits; every float rendered in the theorems
below terminates well within it. -/
def fracDigits : Nat → ℚ → List Char
  | 0, _ => []
  | fuel + 1, q =>
    if q = 0 then []
    else
      let d : Int := (q * 10).num / (q * 10).den
      digitChar d.toNat :: fracDigits fuel (q * 10 - (d : ℚ))

/-- Python `str` of a nonnegative float with a terminating decimal
expansion (e.g. `str(8.0) = "8.0"`, `str(0.5) = "0.5"`): integer part,
a dot, then the fractional digits, with a single `0` when the value is
integral.  `q.num / q.den` is truncating `Int` division, which equals
the floor since the call sites pass `q ≥ 0`. -/
def pyFloatStr (q : ℚ) : String :=
  let ip : Int := q.num / q.den
  let ds := fracDigits 17 (q - (ip : ℚ))
  intStr ip ++ "." ++ (if ds.isEmpty then "0" else String.mk ds)

/-- Python `str` of an int-or-float value (used for `str(dec_num)` in
`convert_to_decimal`). -/
def pyNumStr : PyNum → String
  | .intVal n => intStr n
  | .floatVal q => (if q < 0 then "-" else "") ++ pyFloatStr (if q < 0 then -q else q)

/-- `CalculatorModel.to_decimal(number_str, base)` (lines 270-318):
strip one leading `-`, validate the (uppercased) remaining characters
against the base alphabet, then parse — `float(number_str)` for DEC
(the validated string holds only `0-9`, so the float's value is the
integer it spells), `int(number_str.upper(), base_int)` otherwise —
and reapply the sign.  `int('')`/`float('')` raise, giving the
`Invalid number` branch. -/
def to_decimal (numberStr : String) (base : Base) : Except String PyNum :=
  let l := numberStr.toList
  if l.isEmpty then .error "Empty number string"
  else
    let isNeg := l.head? = some '-'
    let l1 := if isNeg then l.tail else l
    let lu := l1.map Char.toUpper
    if ¬ lu.all (fun d => (validDigits base).contains d) then
      .error ("Invalid digit(s) for " ++ baseName base ++ " number")
    else if lu.isEmpty then
      .error ("Invalid " ++ baseName base ++ " number")
    else
      match base with
      | .DEC =>
        .ok (.floatVal (if isNeg then -(parseNatChars 10 lu : ℚ) else (parseNatChars 10 lu : ℚ)))
      | _ =>
        .ok (.intVal (if isNeg then -(parseNatChars (baseInt base) lu : Int)
                      else (parseNatChars (baseInt base) lu : Int)))

/-- The message of the `from_decimal` digit-limit check
(`"Number too large for {base} representation with {max} digits"`). -/
def overflowMsg (base : Base) : String :=
  "Number too large for " ++ baseName base ++ " representation with "
    ++ toString (maxDisplayDigits base) ++ " digits"

/-- `CalculatorModel.from_decimal(number, base)` (lines 320-374):
`0` (int or float — Python `number == 0` is numeric) returns `"0"`;
the magnitude is taken and the sign re-prefixed; ints beyond
`base_int ** max_display_digits - 1` raise the digit-limit error while
floats skip that check (`isinstance(number, int)` guard, line 352);
DEC renders via `str`, a float in any other base returns the value's
decimal text annotated as non-representable (a normal return), and
BIN/OCT/HEX ints render through `bin`/`oct`/`hex` with `[2:]`
(and `.upper()` for HEX). -/
def from_decimal (v : PyNum) (base : Base) : Except String String :=
  if toRat v = 0 then .ok "0"
  else
    let isNeg := toRat v < 0
    let m := if isNeg then pyNeg v else v
    match m with
    | .intVal n =>
      if ((baseInt base ^ maxDisplayDigits base - 1 : Nat) : Int) < n then
        .error (overflowMsg base)
      else
        match base with
        | .DEC => .ok (intStr (if isNeg then -n else n))
        | .HEX => .ok (String.mk (if isNeg then '-' :: natToBaseChars 16 n.toNat
                                  else natToBaseChars 16 n.toNat))
        | .OCT => .ok (String.mk (if isNeg then '-' :: natToBaseChars 8 n.toNat
                                  else natToBaseChars 8 n.toNat))
        | .BIN => .ok (String.mk (if isNeg then '-' :: natToBaseChars 2 n.toNat
                                  else natToBaseChars 2 n.toNat))
    | .floatVal q =>
      match base with
      | .DEC => .ok ((if isNeg then "-" else "") ++ pyFloatStr q)
      | _ => .ok ((if isNeg then "-" else "") ++ pyFloatStr q
              ++ " (non-integer, cannot represent in " ++ baseName base ++ ")")

/-- `re.sub(r'^\s*-\s*', '-', expr)` (`convert_to_decimal`, line 403):
when the first non-whitespace character is `-`, the leading whitespace,
the `-` and the whitespace after it are replaced by a single `-`;
otherwise the string is unchanged (the anchored pattern matches at most
once). -/
def subLeadMinus (l : List Char) : List Char :=
  match l.dropWhile isSpaceChar with
  | '-' :: r => '-' :: r.dropWhile isSpaceChar
  | _ => l

/-- `re.sub(r'^\s*\+\s*', '', expr)` (line 404): a leading
whitespace-wrapped `+` is deleted outright. -/
def subLeadPlus (l : List Char) : List Char :=
  match l.dropWhile isSpaceChar with
  | '+' :: r => r.dropWhile isSpaceChar
  | _ => l

/-- Scanner state for the global substitutions
`re.sub(r'\(\s*-\s*', '(-', expr)` / `re.sub(r'\(\s*\+\s*', '(', expr)`
(lines 405-406): `outside` a candidate match, just after `(` and `sp`
whitespace characters (held back in case the match fails), or just
after a completed match while its trailing `\s*` is being consumed. -/
inductive ParenSubSt
  | outside
  | afterParen (sp : List Char)
  | afterSign

/-- Left-to-right non-overlapping scan for `re.sub(r'\(\s*-\s*', '(-', _)`;
`sign` is `'-'` for that substitution and `'+'` for the plus variant,
`repl` the characters a match is replaced by (`['(', '-']` resp. `['(']`). -/
def subParenSignGo (sign : Char) (repl : List Char) :
    ParenSubSt → List Char → List Char
  | .outside, [] => []
  | .afterParen sp, [] => '(' :: sp.reverse
  | .afterSign, [] => []
  | .outside, c :: rest =>
    if c = '(' then subParenSignGo sign repl (.afterParen []) rest
    else c :: subParenSignGo sign repl .outside rest
  | .afterParen sp, c :: rest =>
    if isSpaceChar c then subParenSignGo sign repl (.afterParen (c :: sp)) rest
    else if c = sign then repl ++ subParenSignGo sign repl .afterSign rest
    else if c = '(' then ('(' :: sp.reverse) ++ subParenSignGo sign repl (.afterParen []) rest
    else ('(' :: sp.reverse) ++ c :: subParenSignGo sign repl .outside rest
  | .afterSign, c :: rest =>
    if isSpaceChar c then subParenSignGo sign repl .afterSign rest
    else if c = '(' then subParenSignGo sign repl (.afterParen []) rest
    else c :: subParenSignGo sign repl .outside rest

/-- `re.sub(r'\(\s*-\s*', '(-', expr)` (line 405). -/
def subParenMinus (l : List Char) : List Char :=
  subParenSignGo '-' ['(', '-'] .outside l

/-- `re.sub(r'\(\s*\+\s*', '(', expr)` (line 406). -/
def subParenPlus (l : List Char) : List Char :=
  subParenSignGo '+' ['('] .outside l

/-- One step of `re.findall(r'(-?[0-9A-Fa-f]+|[\+\-\*\/\(\)])', expr)`
(`convert_to_decimal`, line 409): a `-` immediately followed by a
`[0-9A-Fa-f]` run is captured together with that run (first
alternative, `-?` consumed), a lone `-` and the other
operator/parenthesis characters are single tokens, and characters
matching no alternative — including whitespace, which this second
regex has no branch for — are silently stepped over.  `acc` holds the
reversed characters (possibly starting with `-`) of the token in
progress. -/
def reTokensConvertGo (acc : List Char) : List Char → List (List Char)
  | [] => if acc.isEmpty then [] else [acc.reverse]
  | c :: rest =>
    if isHexDigitChar c then reTokensConvertGo (c :: acc) rest
    else
      (if acc.isEmpty then [] else [acc.reverse]) ++
        (if c = '-' then
          (match rest with
           | d :: _ =>
             if isHexDigitChar d then reTokensConvertGo ['-'] rest
             else ['-'] :: reTokensConvertGo [] rest
           | [] => ['-'] :: reTokensConvertGo [] rest)
         else if isOpChar c then [c] :: reTokensConvertGo [] rest
         else reTokensConvertGo [] rest)

/-- The token list of `convert_to_decimal`. -/
def reTokensConvert (l : List Char) : List (List Char) :=
  reTokensConvertGo [] l

/-- The token-rewriting loop of `convert_to_decimal` (lines 411-424):
operator/parenthesis tokens pass through, number tokens go through
`to_decimal` and are re-rendered with `str`, and the pieces are joined
with `''.join`. -/
def convertTokens (base : Base) : List (List Char) → Except String String
  | [] => .ok ""
  | t :: rest =>
    if t = ['+'] ∨ t = ['-'] ∨ t = ['*'] ∨ t = ['/'] ∨ t = ['('] ∨ t = [')'] then
      match convertTokens base rest with
      | .ok s => .ok (String.mk t ++ s)
      | .error e => .error e
    else
      match to_decimal (String.mk t) base with
      | .error e => .error ("Error converting number: " ++ e)
      | .ok v =>
        match convertTokens base rest with
        | .ok s => .ok (pyNumStr v ++ s)
        | .error e => .error e

/-- `CalculatorModel.convert_to_decimal(expr, base)` (lines 376-424):
for DEC the input string is returned unchanged — in particular
`validate_expression` is never invoked on this path; for every other
base the expression is validated, the four unary-sign substitutions
are applied, and each numeral token is replaced by its decimal
rendering. -/
def convert_to_decimal (expr : String) (base : Base) : Except String String :=
  match base with
  | .DEC => .ok expr
  | _ =>
    match validate_expression expr base with
    | .error e => .error e
    | .ok _ =>
      let l := subParenPlus (subParenMinus (subLeadPlus (subLeadMinus expr.toList)))
      convertTokens base (reTokensConvert l)

/-- `re.sub(r'-{2,}', '-', dec_expr)` (`evaluate_expression`, line 452):
every maximal run of consecutive `-` characters is replaced by a single
`-` (replacing a length-1 run by itself is the identity, so collapsing
all runs equals the `{2,}`-quantified substitution).  `inRun` records
whether the previous character was part of a minus run. -/
def collapseMinusGo (inRun : Bool) : List Char → List Char
  | [] => []
  | c :: rest =>
    if c = '-' then
      if inRun then collapseMinusGo true rest
      else '-' :: collapseMinusGo true rest
    else c :: collapseMinusGo false rest

/-- `re.sub(r'\+-', '-', dec_expr)` (line 454): each non-overlapping
occurrence of `+-`, scanned left to right, becomes `-`. -/
def subPlusMinus : List Char → List Char
  | '+' :: '-' :: rest => '-' :: subPlusMinus rest
  | c :: rest => c :: subPlusMinus rest
  | [] => []

/-- A token of the Python lexer for the decimal-ized expression handed
to `eval` (line 456): a numeric literal or one of the six
operator/parenthesis symbols. -/
inductive PyTok
  | num (v : PyNum)
  | plus
  | minus
  | star
  | slash
  | lparen
  | rparen
deriving DecidableEq

/-- Rational value of an integer digit string `ds` and fractional digit
string `fs` (a Python float literal `ds.fs`). -/
def mkFloatLit (ds fs : List Char) : PyNum :=
  .floatVal ((parseNatChars 10 ds : ℚ) + (parseNatChars 10 fs : ℚ) / (10 : ℚ) ^ fs.length)

/-- `'0' ≤ c ≤ '9'` — the digits of a Python decimal literal. -/
def isDigitChar (c : Char) : Bool :=
  '0' ≤ c && c ≤ '9'

/-- The CPython tokenizer on the arithmetic sublanguage reachable from
`evaluate_expression`: decimal int literals, float literals
(`123.`, `123.45`, `.45`), the six symbols, and whitespace; any other
character is a lexical/compile error (`none`), which `eval` raises
before any arithmetic runs.  (Identifiers such as a stray `A` raise
`NameError` at run time in CPython instead; both surface through the
same generic `except` clause of `evaluate_expression`, so the model
folds them into the lexical failure.)  Fuel-structured; each step
consumes at least one character, so `l.length + 1` suffices. -/
def pyLexGo : Nat → List Char → Option (List PyTok)
  | 0, _ => none
  | _ + 1, [] => some []
  | fuel + 1, c :: rest =>
    if isDigitChar c then
      let ds := c :: rest.takeWhile isDigitChar
      let r1 := rest.dropWhile isDigitChar
      match r1 with
      | '.' :: r2 =>
        let fs := r2.takeWhile isDigitChar
        (pyLexGo fuel (r2.dropWhile isDigitChar)).map (PyTok.num (mkFloatLit ds fs) :: ·)
      | _ =>
        (pyLexGo fuel r1).map (PyTok.num (.intVal (parseNatChars 10 ds)) :: ·)
    else if c = '.' then
      match rest with
      | d :: _ =>
        if isDigitChar d then
          let fs := rest.takeWhile isDigitChar
          (pyLexGo fuel (rest.dropWhile isDigitChar)).map (PyTok.num (mkFloatLit [] fs) :: ·)
        else none
      | [] => none
    else if c = '+' then (pyLexGo fuel rest).map (PyTok.plus :: ·)
    else if c = '-' then (pyLexGo fuel rest).map (PyTok.minus :: ·)
    else if c = '*' then (pyLexGo fuel rest).map (PyTok.star :: ·)
    else if c = '/' then (pyLexGo fuel rest).map (PyTok.slash :: ·)
    else if c = '(' then (pyLexGo fuel rest).map (PyTok.lparen :: ·)
    else if c = ')' then (pyLexGo fuel rest).map (PyTok.rparen :: ·)
    else if isSpaceChar c then pyLexGo fuel rest
    else none

/-- Lex a decimal-ized expression string. -/
def pyLex (l : List Char) : Option (List PyTok) :=
  pyLexGo (l.length + 1) l

/-- Abstract syntax of the Python arithmetic sublanguage:
`a_expr := a_expr (+|-) m_expr | m_expr`,
`m_expr := m_expr (*|/) u_expr | u_expr`,
`u_expr := (+|-) u_expr | atom`, `atom := literal | ( a_expr )`. -/
inductive PyExpr
  | lit (v : PyNum)
  | pos (e : PyExpr)
  | neg (e : PyExpr)
  | add (a b : PyExpr)
  | sub (a b : PyExpr)
  | mul (a b : PyExpr)
  | div (a b : PyExpr)

/-- Parser mode: `expr p` parses one expression whose operators all have
precedence `≥ p` (0 = additive, 1 = multiplicative, 2 = unary/atom);
`loop p acc` extends `acc` with binary operators of precedence `≥ p`,
left-associatively. -/
inductive PMode
  | expr (p : Nat)
  | loop (p : Nat) (acc : PyExpr)

/-- Precedence-climbing parser for the grammar above (the associativity
and precedence CPython gives `+ - * / ( )` and unary signs).
Fuel-structured so that it reduces in the kernel. -/
def parseP : Nat → PMode → List PyTok → Option (PyExpr × List PyTok)
  | 0, _, _ => none
  | fuel + 1, .expr p, ts =>
    let atom? : Option (PyExpr × List PyTok) :=
      match ts with
      | .plus :: rest => (parseP fuel (.expr 2) rest).map (fun r => (.pos r.1, r.2))
      | .minus :: rest => (parseP fuel (.expr 2) rest).map (fun r => (.neg r.1, r.2))
      | .num v :: rest => some (.lit v, rest)
      | .lparen :: rest =>
        match parseP fuel (.expr 0) rest with
        | some (e, .rparen :: r) => some (e, r)
        | _ => none
      | _ => none
    match atom? with
    | none => none
    | some (e, ts1) => parseP fuel (.loop p e) ts1
  | fuel + 1, .loop p acc, ts =>
    match ts with
    | .plus :: rest =>
      if p = 0 then
        match parseP fuel (.expr 1) rest with
        | some (r, ts1) => parseP fuel (.loop p (.add acc r)) ts1
        | none => none
      else some (acc, ts)
    | .minus :: rest =>
      if p = 0 then
        match parseP fuel (.expr 1) rest with
        | some (r, ts1) => parseP fuel (.loop p (.sub acc r)) ts1
        | none => none
      else some (acc, ts)
    | .star :: rest =>
      if p ≤ 1 then
        match parseP fuel (.expr 2) rest with
        | some (r, ts1) => parseP fuel (.loop p (.mul acc r)) ts1
        | none => none
      else some (acc, ts)
    | .slash :: rest =>
      if p ≤ 1 then
        match parseP fuel (.expr 2) rest with
        | some (r, ts1) => parseP fuel (.loop p (.div acc r)) ts1
        | none => none
      else some (acc, ts)
    | _ => some (acc, ts)

/-- Parse a complete token list (no tokens may remain). -/
def parseFull (ts : List PyTok) : Option PyExpr :=
  match parseP (3 * ts.length + 8) (.expr 0) ts with
  | some (e, []) => some e
  | _ => none

/-- Python `+` with int/float promotion. -/
def pyAdd : PyNum → PyNum → PyNum
  | .intVal a, .intVal b => .intVal (a + b)
  | a, b => .floatVal (toRat a + toRat b)

/-- Python binary `-` with int/float promotion. -/
def pySub : PyNum → PyNum → PyNum
  | .intVal a, .intVal b => .intVal (a - b)
  | a, b => .floatVal (toRat a - toRat b)

/-- Python `*` with int/float promotion. -/
def pyMul : PyNum → PyNum → PyNum
  | .intVal a, .intVal b => .intVal (a * b)
  | a, b => .floatVal (toRat a * toRat b)

/-- Python true division `/`: the result is always a float, whatever the
operand types and even when the mathematical value is integral. -/
def pyDiv (a b : PyNum) : PyNum :=
  .floatVal (toRat a / toRat b)

/-- Run-time evaluation of a compiled expression; the only run-time
failure in this sublanguage is `ZeroDivisionError` (modelled by
`Except Unit`). -/
def evalAst : PyExpr → Except Unit PyNum
  | .lit v => .ok v
  | .pos e => evalAst e
  | .neg e =>
    match evalAst e with
    | .ok w => .ok (pyNeg w)
    | .error u => .error u
  | .add a b =>
    match evalAst a, evalAst b with
    | .ok x, .ok y => .ok (pyAdd x y)
    | .error u, _ => .error u
    | _, .error u => .error u
  | .sub a b =>
    match evalAst a, evalAst b with
    | .ok x, .ok y => .ok (pySub x y)
    | .error u, _ => .error u
    | _, .error u => .error u
  | .mul a b =>
    match evalAst a, evalAst b with
    | .ok x, .ok y => .ok (pyMul x y)
    | .error u, _ => .error u
    | _, .error u => .error u
  | .div a b =>
    match evalAst a, evalAst b with
    | .ok x, .ok y => if toRat y = 0 then .error () else .ok (pyDiv x y)
    | .error u, _ => .error u
    | _, .error u => .error u

/-- Outcome of `eval(dec_expr, {"__builtins__": {}}, {})` on the
arithmetic sublanguage. -/
inductive EvalOutcome
  | ok (v : PyNum)
  | zeroDiv
  | synErr
deriving DecidableEq

/-- `eval` of a decimal-ized expression: compile (lex + parse), then run.
A compile failure raises before any arithmetic does, matching CPython's
compile-then-execute order. -/
def pyEvalList (l : List Char) : EvalOutcome :=
  match pyLex l with
  | none => .synErr
  | some ts =>
    match parseFull ts with
    | none => .synErr
    | some ast =>
      match evalAst ast with
      | .error () => .zeroDiv
      | .ok v => .ok v

/-- The body of the `try` block of `evaluate_expression` (lines 450-470)
applied to the already-decimal-ized expression: collapse minus runs,
reduce `+-`, `eval`, and convert the result back, wrapping every
failure except division by zero in the generic
`"Error evaluating expression: ..."` message (the `except Exception`
clause; `except ZeroDivisionError` is matched first).  The
`isinstance(result, (int, float))` guard cannot fire: `eval` of this
sublanguage only produces numbers. -/
def finishEvaluation (decExpr : String) (base : Base) : Except String String :=
  match pyEvalList (subPlusMinus (collapseMinusGo false decExpr.toList)) with
  | .synErr => .error "Error evaluating expression: invalid syntax"
  | .zeroDiv => .error "Division by zero"
  | .ok v =>
    match from_decimal v base with
    | .ok s => .ok s
    | .error m => .error ("Error evaluating expression: " ++ m)

/-- `CalculatorModel.evaluate_expression(expr, base)` (lines 426-470):
convert to decimal (outside the `try`, so conversion/validation errors
propagate unwrapped), then normalise signs, evaluate and convert the
result back. -/
def evaluate_expression (expr : String) (base : Base) : Except String String :=
  match convert_to_decimal expr base with
  | .error e => .error e
  | .ok decExpr => finishEvaluation decExpr base

instance {ε α : Type} [DecidableEq ε] [DecidableEq α] : DecidableEq (Except ε α) := fun x y =>
  match x, y with
  | .ok a, .ok b =>
    if h : a = b then .isTrue (by rw [h]) else .isFalse (by simp [h])
  | .error a, .error b =>
    if h : a = b then .isTrue (by rw [h]) else .isFalse (by simp [h])
  | .ok _, .error _ => .isFalse (by simp)
  | .error _, .ok _ => .isFalse (by simp)

/-! ### Supporting lemmas: digit rendering and parsing are inverse -/

/-- Little-endian value of a digit-character list (proof helper for the
round-trip theorem). -/
def valueLE (b : Nat) : List Char → Nat
  | [] => 0
  | c :: t => hexVal c + b * valueLE b t

lemma hexVal_digitChar : ∀ d, d < 16 → hexVal (digitChar d) = d := by decide

lemma toUpper_digitChar : ∀ d, d < 16 → Char.toUpper (digitChar d) = digitChar d := by decide

lemma digitChar_ne_minus : ∀ d, d < 16 → digitChar d ≠ '-' := by decide

lemma mem_validDigits_of_lt (base : Base) :
    ∀ d, d < baseInt base → digitChar d ∈ validDigits base := by
  cases base <;> decide

lemma baseInt_le_16 (base : Base) : baseInt base ≤ 16 := by cases base <;> decide

lemma two_le_baseInt (base : Base) : 2 ≤ baseInt base := by cases base <;> decide

lemma parseNatChars_reverse (b : Nat) (l : List Char) :
    parseNatChars b l.reverse = valueLE b l := by
  induction l with
  | nil => rfl
  | cons c t ih =>
    rw [List.reverse_cons]
    unfold parseNatChars at *
    rw [List.foldl_append]
    simp only [List.foldl]
    rw [ih, valueLE]
    ring

lemma valueLE_natToDigitsAux (b : Nat) (hb2 : 2 ≤ b) (hb16 : b ≤ 16) :
    ∀ fuel m, m ≤ fuel → valueLE b (natToDigitsAux b fuel m) = m := by
  intro fuel
  induction fuel with
  | zero =>
    intro m hm
    interval_cases m
    rfl
  | succ f ih =>
    intro m hm
    match m with
    | 0 => rfl
    | k + 1 =>
      show valueLE b (digitChar ((k + 1) % b) :: natToDigitsAux b f ((k + 1) / b)) = k + 1
      rw [valueLE, hexVal_digitChar _ (lt_of_lt_of_le (Nat.mod_lt _ (by omega)) hb16),
        ih ((k + 1) / b) (by
          have := Nat.div_lt_self (show 0 < k + 1 by omega) (show 1 < b by omega)
          omega)]
      exact Nat.mod_add_div (k + 1) b

lemma parse_natToBaseChars (b : Nat) (hb2 : 2 ≤ b) (hb16 : b ≤ 16) (m : Nat) :
    parseNatChars b (natToBaseChars b m) = m := by
  rw [natToBaseChars, parseNatChars_reverse, valueLE_natToDigitsAux b hb2 hb16 m m le_rfl]

lemma natToDigitsAux_mem (b : Nat) (hb : 0 < b) :
    ∀ fuel m c, c ∈ natToDigitsAux b fuel m → ∃ d, d < b ∧ c = digitChar d := by
  intro fuel
  induction fuel with
  | zero => intro m c hc; simp [natToDigitsAux] at hc
  | succ f ih =>
    intro m c hc
    match m with
    | 0 => simp [natToDigitsAux] at hc
    | k + 1 =>
      rw [natToDigitsAux] at hc
      rcases List.mem_cons.mp hc with h | h
      · exact ⟨(k + 1) % b, Nat.mod_lt _ hb, h⟩
      · exact ih _ c h

lemma natToBaseChars_mem (b : Nat) (hb : 0 < b) (m : Nat) (c : Char)
    (hc : c ∈ natToBaseChars b m) : ∃ d, d < b ∧ c = digitChar d :=
  natToDigitsAux_mem b hb m m c (List.mem_reverse.mp hc)

lemma natToBaseChars_ne_nil (b m : Nat) (hm : 1 ≤ m) : natToBaseChars b m ≠ [] := by
  match m, hm with
  | k + 1, _ =>
    rw [natToBaseChars, natToDigitsAux]
    simp

/-- `from_decimal` on a nonzero in-range integer renders sign plus
base-`base_int` digits. -/
lemma from_decimal_int_render (base : Base) (n : Int) (hn : n ≠ 0)
    (hmax : n.natAbs ≤ baseInt base ^ maxDisplayDigits base - 1) (hb : base ≠ Base.DEC) :
    from_decimal (.intVal n) base =
      .ok (String.mk (if n < 0 then '-' :: natToBaseChars (baseInt base) n.natAbs
                      else natToBaseChars (baseInt base) n.natAbs)) := by
  have hq0 : ¬((n : ℚ) = 0) := by exact_mod_cast hn
  unfold from_decimal toRat
  rw [if_neg hq0]
  simp only [Int.cast_lt_zero]
  by_cases hneg : n < 0
  · have htn : (-n).toNat = n.natAbs := by omega
    have hof : ¬(((baseInt base ^ maxDisplayDigits base - 1 : Nat) : Int) < -n) := by omega
    simp only [if_pos hneg, pyNeg]
    cases base
    · simp only [baseInt] at *
      rw [if_neg hof, htn]
    · simp only [baseInt] at *
      rw [if_neg hof, htn]
    · exact absurd rfl hb
    · simp only [baseInt] at *
      rw [if_neg hof, htn]
  · have htn : n.toNat = n.natAbs := by omega
    have hof : ¬(((baseInt base ^ maxDisplayDigits base - 1 : Nat) : Int) < n) := by omega
    simp only [if_neg hneg]
    cases base
    · simp only [baseInt] at *
      rw [if_neg hof, htn]
    · simp only [baseInt] at *
      rw [if_neg hof, htn]
    · exact absurd rfl hb
    · simp only [baseInt] at *
      rw [if_neg hof, htn]

/-- `to_decimal` parses back exactly what `from_decimal` rendered. -/
lemma to_decimal_render (base : Base) (n : Int) (hn : n ≠ 0) (hb : base ≠ Base.DEC) :
    to_decimal (String.mk (if n < 0 then '-' :: natToBaseChars (baseInt base) n.natAbs
                           else natToBaseChars (baseInt base) n.natAbs)) base
      = .ok (.intVal n) := by
  have hb2 := two_le_baseInt base
  have hb16 := baseInt_le_16 base
  have hm1 : 1 ≤ n.natAbs := by omega
  have hne : natToBaseChars (baseInt base) n.natAbs ≠ [] :=
    natToBaseChars_ne_nil _ _ hm1
  have hmem : ∀ c ∈ natToBaseChars (baseInt base) n.natAbs,
      ∃ d, d < baseInt base ∧ c = digitChar d :=
    fun c hc => natToBaseChars_mem _ (by omega) _ c hc
  obtain ⟨c0, cs', hcs⟩ : ∃ c0 cs', natToBaseChars (baseInt base) n.natAbs = c0 :: cs' := by
    cases h : natToBaseChars (baseInt base) n.natAbs with
    | nil => exact absurd h hne
    | cons a t => exact ⟨a, t, rfl⟩
  have hupper : (c0 :: cs').map Char.toUpper = c0 :: cs' := by
    conv_rhs => rw [← List.map_id (c0 :: cs')]
    apply List.map_congr_left
    intro c hc
    obtain ⟨d, hd, rfl⟩ := hmem c (hcs ▸ hc)
    exact toUpper_digitChar d (by omega)
  have hall : (c0 :: cs').all (fun d => (validDigits base).contains d) = true := by
    rw [List.all_eq_true]
    intro c hc
    obtain ⟨d, hd, rfl⟩ := hmem c (hcs ▸ hc)
    exact List.elem_eq_true_of_mem (mem_validDigits_of_lt base d hd)
  have hc0 : c0 ≠ '-' := by
    obtain ⟨d, hd, rfl⟩ := hmem c0 (hcs ▸ List.mem_cons_self c0 cs')
    exact digitChar_ne_minus d (by omega)
  have hparse : parseNatChars (baseInt base) (c0 :: cs') = n.natAbs := by
    rw [← hcs]; exact parse_natToBaseChars _ hb2 hb16 _
  rw [hcs]
  by_cases hneg : n < 0
  · rw [if_pos hneg]
    have hval : -(n.natAbs : Int) = n := by omega
    rcases base with _ | _ | _ | _ <;>
      first
        | exact absurd rfl hb
        | · simp only [to_decimal, String.toList, List.isEmpty_cons, List.head?_cons,
              List.tail_cons, if_pos rfl, if_true, hupper, hall, hparse]
            simp [hval]
            rw [abs_of_neg hneg, neg_neg]
  · rw [if_neg hneg]
    have hval : ((n.natAbs : Int)) = n := by omega
    rcases base with _ | _ | _ | _ <;>
      first
        | exact absurd rfl hb
        | · simp only [to_decimal, String.toList, List.isEmpty_cons, List.head?_cons,
              Option.some.injEq, hc0, if_false, hupper, hall, hparse]
            simp [hval, hc0]

/-- `from_decimal` maps zero to the literal `"0"` in every base. -/
lemma from_decimal_zero (base : Base) : from_decimal (.intVal 0) base = .ok "0" := by
  simp [from_decimal, toRat]

/-! ### Further supporting lemmas -/

/-- A maximal run of minus signs after the first is absorbed by
`collapseMinusGo` in the `inRun` state. -/
lemma collapseMinusGo_true_minus (j : Nat) (l : List Char) :
    collapseMinusGo true (List.replicate j '-' ++ l) = collapseMinusGo true l := by
  induction j with
  | zero => rfl
  | succ i ih =>
    rw [List.replicate_succ, List.cons_append]
    simpa [collapseMinusGo] using ih

/-- Does a compiled expression contain a division node (proof helper)? -/
def containsDiv : PyExpr → Bool
  | .lit _ => false
  | .pos e => containsDiv e
  | .neg e => containsDiv e
  | .add a b => containsDiv a || containsDiv b
  | .sub a b => containsDiv a || containsDiv b
  | .mul a b => containsDiv a || containsDiv b
  | .div _ _ => true

/-- Float contagion: once any division is evaluated, every enclosing
`+ - *` promotes to float, so the value of an expression containing `/`
is always a float. -/
lemma evalAst_float_of_containsDiv :
    ∀ (ast : PyExpr) (v : PyNum), containsDiv ast = true → evalAst ast = .ok v →
      ∃ q, v = .floatVal q := by
  intro ast
  induction ast with
  | lit w => intro v hd hv; simp [containsDiv] at hd
  | pos e ih => intro v hd hv; exact ih v hd hv
  | neg e ih =>
    intro v hd hv
    simp only [containsDiv] at hd
    simp only [evalAst] at hv
    cases he : evalAst e with
    | error u => rw [he] at hv; simp at hv
    | ok w =>
      rw [he] at hv
      simp only [Except.ok.injEq] at hv
      obtain ⟨q, rfl⟩ := ih w hd he
      exact ⟨-q, by rw [← hv]; rfl⟩
  | add a b iha ihb =>
    intro v hd hv
    simp only [containsDiv, Bool.or_eq_true] at hd
    simp only [evalAst] at hv
    cases ha : evalAst a with
    | error u => rw [ha] at hv; simp at hv
    | ok x =>
      cases hb2 : evalAst b with
      | error u => rw [ha, hb2] at hv; simp at hv
      | ok y =>
        rw [ha, hb2] at hv
        simp only [Except.ok.injEq] at hv
        subst hv
        rcases hd with hd | hd
        · obtain ⟨q, rfl⟩ := iha x hd ha
          cases y <;> exact ⟨_, rfl⟩
        · obtain ⟨q, rfl⟩ := ihb y hd hb2
          cases x <;> exact ⟨_, rfl⟩
  | sub a b iha ihb =>
    intro v hd hv
    simp only [containsDiv, Bool.or_eq_true] at hd
    simp only [evalAst] at hv
    cases ha : evalAst a with
    | error u => rw [ha] at hv; simp at hv
    | ok x =>
      cases hb2 : evalAst b with
      | error u => rw [ha, hb2] at hv; simp at hv
      | ok y =>
        rw [ha, hb2] at hv
        simp only [Except.ok.injEq] at hv
        subst hv
        rcases hd with hd | hd
        · obtain ⟨q, rfl⟩ := iha x hd ha
          cases y <;> exact ⟨_, rfl⟩
        · obtain ⟨q, rfl⟩ := ihb y hd hb2
          cases x <;> exact ⟨_, rfl⟩
  | mul a b iha ihb =>
    intro v hd hv
    simp only [containsDiv, Bool.or_eq_true] at hd
    simp only [evalAst] at hv
    cases ha : evalAst a with
    | error u => rw [ha] at hv; simp at hv
    | ok x =>
      cases hb2 : evalAst b with
      | error u => rw [ha, hb2] at hv; simp at hv
      | ok y =>
        rw [ha, hb2] at hv
        simp only [Except.ok.injEq] at hv
        subst hv
        rcases hd with hd | hd
        · obtain ⟨q, rfl⟩ := iha x hd ha
          cases y <;> exact ⟨_, rfl⟩
        · obtain ⟨q, rfl⟩ := ihb y hd hb2
          cases x <;> exact ⟨_, rfl⟩
  | div a b iha ihb =>
    intro v hd hv
    simp only [evalAst] at hv
    cases ha : evalAst a with
    | error u => rw [ha] at hv; simp at hv
    | ok x =>
      cases hb2 : evalAst b with
      | error u => rw [ha, hb2] at hv; simp at hv
      | ok y =>
        rw [ha, hb2] at hv
        have hv' : (if toRat y = 0 then (Except.error () : Except Unit PyNum)
            else .ok (pyDiv x y)) = .ok v := hv
        by_cases hy : toRat y = 0
        · rw [if_pos hy] at hv'; simp at hv'
        · rw [if_neg hy] at hv'
          simp only [Except.ok.injEq] at hv'
          exact ⟨toRat x / toRat y, hv'.symm⟩

/-! ### Claim theorems -/

/-- Claim C1: for every expression in a non-DEC base that passes
validation (i.e. `convert_to_decimal` succeeds, which requires
validation), `evaluate_expression` is exactly the composition of the
numeral-to-decimal rewriting with the standard-precedence arithmetic
evaluation of the decimal-ized string and the conversion of the result
back to the original base (`finishEvaluation`); in particular
`evaluate("01+110", BIN) = "111"` and `evaluate("A+1", HEX) = "B"`. -/
theorem claim_C1_pipeline :
    (∀ (e d : String) (b : Base), b ≠ Base.DEC → convert_to_decimal e b = .ok d →
      evaluate_expression e b = finishEvaluation d b)
    ∧ evaluate_expression "01+110" Base.BIN = .ok "111"
    ∧ evaluate_expression "A+1" Base.HEX = .ok "B" := by
  refine ⟨fun e d b hb hc => ?_, by decide, by decide⟩
  unfold evaluate_expression
  rw [hc]

/-- Witness for C1 at `e = "A+1"`, `b = HEX` (where
`convert_to_decimal` yields `"10+1"`). -/
theorem claim_C1_pipeline_witness :
    evaluate_expression "A+1" Base.HEX = finishEvaluation "10+1" Base.HEX :=
  claim_C1_pipeline.1 "A+1" "10+1" Base.HEX (by decide) (by decide)

/-- Claim C2 counterexample: the claim predicts
`evaluate("5--3", DEC) = str(5 + 3) = "8"`, but the
`re.sub(r'-{2,}', '-', _)` step collapses the double minus to a single
minus, so the code computes `5 - 3` and returns `"2"`. -/
theorem claim_C2_counterexample :
    evaluate_expression "5--3" Base.DEC = .ok "2"
    ∧ evaluate_expression "5--3" Base.DEC ≠ .ok "8" :=
  ⟨by decide, by decide⟩

/-- Claim C2 as amended: every run of one or more consecutive minus
signs between two numerals collapses to a single minus regardless of
parity (no sign-multiplication rule is applied), so for every `k ≥ 1`,
`evaluate("5" + "-"*k + "3", DEC) = "2"`. -/
theorem claim_C2_amended :
    ∀ k, 1 ≤ k →
      evaluate_expression (String.mk ('5' :: (List.replicate k '-' ++ ['3']))) Base.DEC
        = .ok "2" := by
  intro k hk
  obtain ⟨j, rfl⟩ : ∃ j, k = j + 1 := ⟨k - 1, by omega⟩
  have hcol : collapseMinusGo false
      (String.toList (String.mk ('5' :: (List.replicate (j + 1) '-' ++ ['3']))))
      = ['5', '-', '3'] := by
    show collapseMinusGo false ('5' :: (List.replicate (j + 1) '-' ++ ['3'])) = _
    rw [List.replicate_succ, List.cons_append]
    simp [collapseMinusGo, collapseMinusGo_true_minus]
  rw [show evaluate_expression (String.mk ('5' :: (List.replicate (j + 1) '-' ++ ['3'])))
        Base.DEC
      = finishEvaluation (String.mk ('5' :: (List.replicate (j + 1) '-' ++ ['3'])))
        Base.DEC from rfl]
  unfold finishEvaluation
  rw [hcol]
  decide

/-- Witness for the amended C2 at `k = 2` (the input `"5--3"`). -/
theorem claim_C2_amended_witness :
    evaluate_expression (String.mk ('5' :: (List.replicate 2 '-' ++ ['3']))) Base.DEC
      = .ok "2" :=
  claim_C2_amended 2 (by decide)

unseal Rat.inv Rat.mul Rat.sub Rat.add in
/-- Claim C3 counterexample: `from_decimal(0.5, BIN)` does not fail —
it returns normally with an annotated string. -/
theorem claim_C3_counterexample :
    from_decimal (.floatVal (1 / 2)) Base.BIN
      = .ok "0.5 (non-integer, cannot represent in BIN)" := by decide

/-- Claim C3 as amended: for every non-integer float value and every
base other than DEC, `from_decimal` returns normally (no error) with
the value's decimal text followed by the annotation
`" (non-integer, cannot represent in <base>)"`; only for DEC is the
value rendered as a plain decimal string. -/
theorem claim_C3_amended :
    (∀ (q : ℚ) (b : Base), b ≠ Base.DEC → q.den ≠ 1 →
      from_decimal (.floatVal q) b
        = .ok ((if q < 0 then "-" else "") ++ pyFloatStr (if q < 0 then -q else q)
            ++ " (non-integer, cannot represent in " ++ baseName b ++ ")"))
    ∧ (∀ q : ℚ, q.den ≠ 1 →
      from_decimal (.floatVal q) Base.DEC
        = .ok ((if q < 0 then "-" else "") ++ pyFloatStr (if q < 0 then -q else q))) := by
  constructor
  · intro q b hb hq
    have hq0 : q ≠ 0 := fun h => hq (by rw [h]; rfl)
    simp only [from_decimal, toRat, pyNeg]
    rw [if_neg hq0, ← apply_ite PyNum.floatVal]
  · intro q hq
    have hq0 : q ≠ 0 := fun h => hq (by rw [h]; rfl)
    simp only [from_decimal, toRat, pyNeg]
    rw [if_neg hq0, ← apply_ite PyNum.floatVal]

unseal Rat.inv Rat.mul in
/-- Witness for the amended C3 at `q = 1/2`, `b = OCT`. -/
theorem claim_C3_amended_witness :
    from_decimal (.floatVal (1 / 2)) Base.OCT
      = .ok ((if (1 / 2 : ℚ) < 0 then "-" else "")
          ++ pyFloatStr (if (1 / 2 : ℚ) < 0 then -(1 / 2) else (1 / 2))
          ++ " (non-integer, cannot represent in " ++ baseName Base.OCT ++ ")") :=
  claim_C3_amended.1 (1 / 2) Base.OCT (by decide) (by decide)

/-- Claim C4: for every integer `n` with `|n| ≤ base_int ** max_digits - 1`
and every base in {BIN, OCT, HEX},
`to_decimal(from_decimal(n, base), base) = n`; and
`from_decimal(0, base) = "0"` for every one of the four bases. -/
theorem claim_C4_roundtrip :
    (∀ (n : Int) (b : Base), b ≠ Base.DEC →
        n.natAbs ≤ baseInt b ^ maxDisplayDigits b - 1 →
        ∃ s, from_decimal (.intVal n) b = .ok s ∧ to_decimal s b = .ok (.intVal n))
    ∧ (∀ b, from_decimal (.intVal 0) b = .ok "0") := by
  refine ⟨fun n b hb hmax => ?_, from_decimal_zero⟩
  by_cases hn : n = 0
  · subst hn
    refine ⟨"0", from_decimal_zero b, ?_⟩
    rcases b with _ | _ | _ | _
    · decide
    · decide
    · exact absurd rfl hb
    · decide
  · exact ⟨_, from_decimal_int_render b n hn hmax hb, to_decimal_render b n hn hb⟩

/-- Witness for C4 at `n = 5`, `b = BIN`. -/
theorem claim_C4_roundtrip_witness :
    ∃ s, from_decimal (.intVal 5) Base.BIN = .ok s
      ∧ to_decimal s Base.BIN = .ok (.intVal 5) :=
  claim_C4_roundtrip.1 5 Base.BIN (by decide) (by decide)

/-- Claim C5 counterexample: `"1$1"` contains `$`, which is neither a
digit, an operator/parenthesis, nor whitespace, yet validation
succeeds — no `InvalidCharacterError` exists on this path; the
character is silently ignored by `re.findall`. -/
theorem claim_C5_counterexample :
    validate_expression "1$1" Base.BIN = .ok () := by decide

/-- Claim C5 as amended: a character outside all three token classes is
silently stepped over by the tokenizer (never an error), and such an
expression even evaluates: the two digit runs around `$` are
concatenated downstream, so `evaluate("1$1", BIN) = "1011"` (eleven in
binary). -/
theorem claim_C5_amended :
    (∀ (c : Char) (rest : List Char),
        isHexDigitChar c = false → isOpChar c = false → isSpaceChar c = false →
        reTokensValidate (c :: rest) = reTokensValidate rest)
    ∧ evaluate_expression "1$1" Base.BIN = .ok "1011" := by
  refine ⟨fun c rest h1 h2 h3 => ?_, by decide⟩
  simp [reTokensValidate, reTokensValidateGo, h1, h2, h3]

/-- Witness for the amended C5 at `c = '$'`. -/
theorem claim_C5_amended_witness :
    reTokensValidate ('$' :: ['1']) = reTokensValidate ['1'] :=
  claim_C5_amended.1 '$' ['1'] (by decide) (by decide) (by decide)

/-- Claim C6: every integer whose magnitude exceeds
`base_int ** max_display_digits - 1` makes `from_decimal` fail with the
digit-limit error naming the base and its digit limit; in particular
`evaluate("FFFFFFFFFFFFFFFF+1", HEX)` fails because the 16-digit HEX
limit is exactly `2^64 - 1` (the error surfaces wrapped by the generic
`except` clause of `evaluate_expression`). -/
theorem claim_C6_overflow :
    (∀ (v : Int) (b : Base), baseInt b ^ maxDisplayDigits b - 1 < v.natAbs →
        from_decimal (.intVal v) b = .error (overflowMsg b))
    ∧ evaluate_expression "FFFFFFFFFFFFFFFF+1" Base.HEX
        = .error ("Error evaluating expression: " ++ overflowMsg Base.HEX) := by
  refine ⟨fun v b hmax => ?_, by decide⟩
  have hv : v ≠ 0 := by
    intro h
    subst h
    simp at hmax
  have hq0 : ¬((v : ℚ) = 0) := by exact_mod_cast hv
  unfold from_decimal toRat
  rw [if_neg hq0]
  simp only [Int.cast_lt_zero]
  by_cases hneg : v < 0
  · simp only [if_pos hneg, pyNeg]
    rw [if_pos (by omega : ((baseInt b ^ maxDisplayDigits b - 1 : Nat) : Int) < -v)]
  · simp only [if_neg hneg]
    rw [if_pos (by omega : ((baseInt b ^ maxDisplayDigits b - 1 : Nat) : Int) < v)]

/-- Witness for C6 at `v = 2^64`, `b = HEX`. -/
theorem claim_C6_overflow_witness :
    from_decimal (.intVal 18446744073709551616) Base.HEX = .error (overflowMsg Base.HEX) :=
  claim_C6_overflow.1 18446744073709551616 Base.HEX (by decide)

/-- Claim C7 counterexample: `1+(5-3*9)+6*9 = 1 + (5-27) + 54 = 33`
under standard precedence, so the evaluator does not return `"50"`. -/
theorem claim_C7_counterexample :
    evaluate_expression "1+(5-3*9)+6*9" Base.DEC ≠ .ok "50" := by decide

/-- Claim C7 as amended: `evaluate("1+(5-3*9)+6*9", DEC) = "33"`. -/
theorem claim_C7_amended :
    evaluate_expression "1+(5-3*9)+6*9" Base.DEC = .ok "33" := by decide

/-- Claim C8: for base DEC, `convert_to_decimal` returns the input
unchanged for every string whatsoever (so `validate_expression` is
never consulted on the evaluate path), and malformed DEC input either
surfaces as the generic evaluation error — e.g. `"1+"`, which
validation would reject as a trailing operator — or is silently
repaired and accepted — e.g. `"+-5"`, which validation rejects as
invalid operator placement but which evaluates to `"-5"`. -/
theorem claim_C8_dec_bypasses_validation :
    (∀ e : String, convert_to_decimal e Base.DEC = .ok e)
    ∧ validate_expression "1+" Base.DEC = .error "Expression cannot end with an operator"
    ∧ evaluate_expression "1+" Base.DEC
        = .error "Error evaluating expression: invalid syntax"
    ∧ validate_expression "+-5" Base.DEC = .error "Invalid operator placement"
    ∧ evaluate_expression "+-5" Base.DEC = .ok "-5" :=
  ⟨fun _ => rfl, by decide, by decide, by decide, by decide⟩

unseal Rat.inv Rat.mul Rat.sub Rat.add in
/-- Claim C9: division always produces a float — any evaluated
expression containing `/` yields a float value, whatever its
mathematical value — `from_decimal` never fails on a float (its
digit-limit check is guarded by `isinstance(number, int)`), and
concretely `evaluate("10/2", HEX)` (value 8) returns
`"8.0 (non-integer, cannot represent in HEX)"` instead of `"8"`. -/
theorem claim_C9_division_floats :
    (∀ (ast : PyExpr) (v : PyNum), containsDiv ast = true → evalAst ast = .ok v →
        ∃ q, v = .floatVal q)
    ∧ (∀ (q : ℚ) (b : Base), (from_decimal (.floatVal q) b).isOk = true)
    ∧ evaluate_expression "10/2" Base.HEX
        = .ok "8.0 (non-integer, cannot represent in HEX)" := by
  refine ⟨evalAst_float_of_containsDiv, fun q b => ?_, by decide⟩
  by_cases hq : q = 0
  · simp [from_decimal, toRat, hq, Except.isOk, Except.toBool]
  · simp only [from_decimal, toRat, pyNeg]
    rw [if_neg hq, ← apply_ite PyNum.floatVal]
    cases b <;> rfl

unseal Rat.inv Rat.mul in
/-- Witness for C9 at the compiled expression `16 / 2`. -/
theorem claim_C9_division_floats_witness :
    ∃ q, PyNum.floatVal ((16 : ℚ) / 2) = PyNum.floatVal q :=
  claim_C9_division_floats.1 (.div (.lit (.intVal 16)) (.lit (.intVal 2)))
    (PyNum.floatVal ((16 : ℚ) / 2)) rfl (by decide)

/-- Claim C10: `validate_expression` has no rule against one number
token directly following another, so `"1 1"` passes validation in every
base; for the non-DEC bases `convert_to_decimal` then concatenates the
decimal renderings of the two numerals into the single numeral `"11"`,
and `evaluate("1 1", BIN)` returns `"1011"`, the binary rendering of
eleven. -/
theorem claim_C10_adjacent_numerals :
    (∀ b, validate_expression "1 1" b = .ok ())
    ∧ (∀ b, b ≠ Base.DEC → convert_to_decimal "1 1" b = .ok "11")
    ∧ evaluate_expression "1 1" Base.BIN = .ok "1011" := by
  refine ⟨fun b => ?_, fun b hb => ?_, by decide⟩
  · cases b <;> decide
  · rcases b with _ | _ | _ | _
    · decide
    · decide
    · exact absurd rfl hb
    · decide

/-- Witness for C10 at `b = OCT`. -/
theorem claim_C10_adjacent_numerals_witness :
    convert_to_decimal "1 1" Base.OCT = .ok "11" :=
  claim_C10_adjacent_numerals.2.1 Base.OCT (by decide)

end MathTool
